import Mathlib

/-!
Verification of the martin tile-server core (source registry, PostgreSQL tile
fetch, multi-source resolution and TileJSON merge) against its specification.

The Rust sources are shallowly embedded:
* `src/martin/src/source.rs` — `TileSources`, the `Source` trait, `get_sources`;
* `src/martin/src/pg/pg_source.rs` — `PgSource`, `get_tile`, `add_source`;
* `src/martin/src/srv/tiles_info.rs` — `merge_tilejson`.

Machine integers (`u8`, `u32`) are embedded as `Nat` (all operations used by the
code are comparisons and lossless widenings, so no wraparound can occur);
`f64` bounds/center coordinates are embedded as `Rat` (only `min`/`max` are
used on them); fallible Rust functions return `Except`.
-/

set_option autoImplicit false

namespace Martin

/-! ### Tile formats and encodings (`martin_tile_utils`) -/

/-- Container format of a tile payload (`martin_tile_utils::Format`). -/
inductive Format where
  | mvt
  | png
  | jpeg
  | gif
  | webp
  | json
deriving DecidableEq, Repr

/-- Compression encoding of a tile payload (`martin_tile_utils::Encoding`). -/
inductive Encoding where
  | uncompressed
  | gzip
  | brotli
  | zstd
deriving DecidableEq, Repr

/-- Embeds `martin_tile_utils::TileInfo`: the format fingerprint of a source. -/
structure TileInfo where
  format : Format
  encoding : Encoding
deriving DecidableEq, Repr

/-- Embeds `TileInfo::new`. -/
def TileInfo.new (format : Format) (encoding : Encoding) : TileInfo :=
  ⟨format, encoding⟩

/-- Embeds `TileCoord { z: u8, x: u32, y: u32 }`. -/
structure TileCoord where
  z : Nat
  x : Nat
  y : Nat
deriving DecidableEq, Repr

/-- Embeds `type TileData = Vec<u8>`. -/
abbrev TileData := List Nat

/-- Embeds `type UrlQuery = HashMap<String, String>`, embedded as an association list. -/
abbrev UrlQuery := List (String × String)

/-! ### TileJSON documents (`tilejson` crate) -/

/-- Embeds `tilejson::Bounds`: a geographic rectangle (f64 fields embedded as `Rat`). -/
structure Bounds where
  left : Rat
  bottom : Rat
  right : Rat
  top : Rat
deriving DecidableEq

/-- Embeds `impl Add for Bounds`: the union rectangle, as used by `merge_tilejson`. -/
def Bounds.add (a b : Bounds) : Bounds :=
  ⟨min a.left b.left, min a.bottom b.bottom, max a.right b.right, max a.top b.top⟩

/-- Embeds `tilejson::Center` (longitude, latitude, zoom). -/
structure Center where
  longitude : Rat
  latitude : Rat
  zoom : Nat
deriving DecidableEq

/-- Embeds `tilejson::VectorLayer` descriptor. -/
structure VectorLayer where
  id : String
  fields : List (String × String)
  description : Option String
  minzoom : Option Nat
  maxzoom : Option Nat
deriving DecidableEq

/-- Embeds `tilejson::TileJSON` (zoom fields are `u8`, embedded as `Nat`;
`other` is a `BTreeMap`, embedded as an association list). -/
structure TileJSON where
  tilejson : String
  tiles : List String
  vector_layers : Option (List VectorLayer)
  attribution : Option String
  bounds : Option Bounds
  center : Option Center
  data : Option (List String)
  description : Option String
  fillzoom : Option Nat
  grids : Option (List String)
  legend : Option String
  maxzoom : Option Nat
  minzoom : Option Nat
  name : Option String
  scheme : Option String
  template : Option String
  version : Option String
  other : List (String × String)
deriving DecidableEq

/-- The document produced by the `tilejson!` macro: everything absent except
the version marker and the given `tiles` list. -/
def TileJSON.base (tiles : List String) : TileJSON where
  tilejson := "3.0.0"
  tiles := tiles
  vector_layers := none
  attribution := none
  bounds := none
  center := none
  data := none
  description := none
  fillzoom := none
  grids := none
  legend := none
  maxzoom := none
  minzoom := none
  name := none
  scheme := none
  template := none
  version := none
  other := []

/-! ### The `Source` trait (`source.rs`)

A `Box<dyn Source>` is embedded as the record of the observable behaviour the
registry and the merge engine consume: identity, TileJSON document, format
fingerprint, and url-query support. -/

/-- The observable behaviour of a `Box<dyn Source>` trait object. -/
structure Source where
  id : String
  tilejson : TileJSON
  tile_info : TileInfo
  url_query : Bool
deriving DecidableEq

/-- Embeds `Source::get_id`. -/
def Source.get_id (s : Source) : String := s.id

/-- Embeds `Source::get_tilejson`. -/
def Source.get_tilejson (s : Source) : TileJSON := s.tilejson

/-- Embeds `Source::get_tile_info`. -/
def Source.get_tile_info (s : Source) : TileInfo := s.tile_info

/-- Embeds `Source::support_url_query`. -/
def Source.support_url_query (s : Source) : Bool := s.url_query

/-- Embeds `Source::is_valid_zoom` (default trait method):
`tj.minzoom.map_or(true, |minzoom| zoom >= minzoom) && tj.maxzoom.map_or(true, |maxzoom| zoom <= maxzoom)`. -/
def Source.is_valid_zoom (s : Source) (zoom : Nat) : Bool :=
  (match s.get_tilejson.minzoom with
    | some minzoom => decide (minzoom ≤ zoom)
    | none => true)
  && (match s.get_tilejson.maxzoom with
    | some maxzoom => decide (zoom ≤ maxzoom)
    | none => true)

/-! ### The registry `TileSources` (`source.rs`) -/

/-- Embeds `struct TileSources(HashMap<String, Box<dyn Source>>)`, embedded as its
lookup function. -/
structure TileSources where
  map : String → Option Source

/-- The empty map. -/
def TileSources.empty : TileSources := ⟨fun _ => none⟩

/-- Embeds `HashMap::insert` semantics: the new binding shadows any previous one. -/
def TileSources.insert (m : TileSources) (key : String) (source : Source) : TileSources :=
  ⟨fun id => if id = key then some source else m.map id⟩

/-- Embeds `TileSources::new`: flatten the groups and `collect` into a `HashMap`
(later entries with an equal id overwrite earlier ones). -/
def TileSources.new (sources : List (List Source)) : TileSources :=
  (sources.flatten).foldl (fun m src => m.insert src.get_id src) TileSources.empty

/-- Embeds `TileSources::insert_source` (logging dropped). -/
def TileSources.insert_source (m : TileSources) (key : String) (source : Source) : TileSources :=
  m.insert key source

/-- The errors `get_source`/`get_sources` construct. Both are
`actix_web::error::ErrorNotFound` values in the Rust code; they are
distinguished here by the data their messages carry. `panicNoInfo` models the
`info.unwrap()` call at the end of `get_sources`, which would panic if `info`
were still `None`. -/
inductive SourceError where
  | notFound (id : String)
  | mergeConflict (inf srcInf : TileInfo)
  | panicNoInfo
deriving DecidableEq, Repr

/-- Embeds `TileSources::get_source`. -/
def TileSources.get_source (m : TileSources) (id : String) : Except SourceError Source :=
  match m.map id with
  | some src => .ok src
  | none => .error (.notFound id)

/-- Embeds `TileSources::check_zoom` (the `id` argument only feeds the debug log). -/
def TileSources.check_zoom (src : Source) (_id : String) (zoom : Nat) : Bool :=
  src.is_valid_zoom zoom

/-- Embeds `str::split(c)` on the underlying characters: split at every occurrence of
`c`, keeping empty pieces; the result is never empty. -/
def splitCharList (c : Char) : List Char → List (List Char)
  | [] => [[]]
  | a :: rest =>
    let r := splitCharList c rest
    if a = c then [] :: r else (a :: r.headD []) :: r.tail

/-- Rust `str::split(c)` as a list of strings. -/
def rustSplit (s : String) (c : Char) : List String :=
  (splitCharList c s.data).map (fun cs => ⟨cs⟩)

/-- The body of the `for id in source_ids.split(',')` loop of
`TileSources::get_sources`, with the accumulated `sources`, `info` and
`use_url_query` state passed explicitly. -/
def getSourcesLoop (self : TileSources) (zoom : Option Nat) :
    List String → List Source → Option TileInfo → Bool →
    Except SourceError (List Source × Option TileInfo × Bool)
  | [], sources, info, use_url_query => .ok (sources, info, use_url_query)
  | id :: rest, sources, info, use_url_query =>
    match self.get_source id with
    | .error e => .error e
    | .ok src =>
      let src_inf := src.get_tile_info
      let uq := use_url_query || src.support_url_query
      let keep : Bool :=
        match zoom with
        | some z => TileSources.check_zoom src id z
        | none => true
      let sources' := if keep then sources ++ [src] else sources
      match info with
      | some inf =>
        if inf = src_inf then getSourcesLoop self zoom rest sources' (some inf) uq
        else .error (.mergeConflict inf src_inf)
      | none => getSourcesLoop self zoom rest sources' (some src_inf) uq

/-- Embeds `TileSources::get_sources`. -/
def TileSources.get_sources (self : TileSources) (source_ids : String) (zoom : Option Nat) :
    Except SourceError (List Source × Bool × TileInfo) :=
  match getSourcesLoop self zoom (rustSplit source_ids ',') [] none false with
  | .error e => .error e
  | .ok (sources, info, use_url_query) =>
    match info with
    | some inf => .ok (sources, use_url_query, inf)
    | none => .error .panicNoInfo

/-! ### PostgreSQL-backed sources (`pg/pg_source.rs`)

The external database capabilities (pool acquisition, statement preparation,
query execution — spec §6 boundary) are embedded as record fields holding the
outcome of each call, so `get_tile` can be analysed for every environment
behaviour. -/

/-- Parameter types passed to `prepare_typed_cached`. -/
inductive PgType where
  | int2
  | int8
  | json
deriving DecidableEq, Repr

/-- A bound SQL parameter value. -/
inductive SqlParam where
  | int2 (v : Int)
  | int8 (v : Int)
  | json (v : List (String × String))
deriving DecidableEq, Repr

/-- A database row as consumed by `get_tile`: `row.get::<_, Option<TileData>>(0)`
reads the first column as an optional byte payload. -/
structure Row where
  col0 : Option TileData
deriving DecidableEq

/-- A prepared statement handle (identified by its SQL text and types,
which is the cache key of `prepare_typed_cached`). -/
structure PgStatement where
  sql : String
  types : List PgType
deriving DecidableEq

/-- The connection capability consumed by `get_tile`: prepare a typed
statement, and execute it returning zero or one row (`query_opt`). -/
structure PgConn where
  prepare_typed_cached : String → List PgType → Except String PgStatement
  query_opt : PgStatement → List SqlParam → Except String (Option Row)

/-- The pool capability: `pool.get()`, an async fallible acquisition. -/
structure PgPool where
  get : Except String PgConn

/-- Embeds `PgSqlInfo { sql_query, use_url_query, signature }`. -/
structure PgSqlInfo where
  sql_query : String
  use_url_query : Bool
  signature : String
deriving DecidableEq

/-- Embeds `PgSqlInfo::new`. -/
def PgSqlInfo.new (query : String) (has_query_params : Bool) (signature : String) : PgSqlInfo where
  sql_query := query
  use_url_query := has_query_params
  signature := signature

/-- Embeds `struct PgSource { id, info, pool, tilejson }`. -/
structure PgSource where
  id : String
  info : PgSqlInfo
  pool : PgPool
  tilejson : TileJSON

/-- Embeds `PgSource::new`. -/
def PgSource.new (id : String) (info : PgSqlInfo) (tilejson : TileJSON) (pool : PgPool) : PgSource :=
  ⟨id, info, pool, tilejson⟩

/-- Embeds `PgSource::get_id`. -/
def PgSource.get_id (s : PgSource) : String := s.id

/-- Embeds `PgSource::get_tilejson`. -/
def PgSource.get_tilejson (s : PgSource) : TileJSON := s.tilejson

/-- Embeds `PgSource::get_tile_info`: always `TileInfo::new(Mvt, Uncompressed)`. -/
def PgSource.get_tile_info (_ : PgSource) : TileInfo :=
  TileInfo.new Format.mvt Encoding.uncompressed

/-- Embeds `PgSource::support_url_query`. -/
def PgSource.support_url_query (s : PgSource) : Bool := s.info.use_url_query

/-- The `Box<dyn Source>` view of a `PgSource` (what `Box::new(pg_source)` or
`clone_source` hands to the registry): its observable trait behaviour. -/
def PgSource.clone_source (s : PgSource) : Source where
  id := s.id
  tilejson := s.tilejson
  tile_info := s.get_tile_info
  url_query := s.support_url_query

/-- The errors of `pg/errors.rs` that `get_tile` constructs, with the payloads
in the order the Rust constructors take them. The crate-level `MartinError`
wrapper is collapsed into this type. -/
inductive PgError where
  | poolError (e : String)
  | prepareQueryError (e : String) (id : String) (signature : String) (sql : String)
  | getTileError (e : String) (id : String) (xyz : TileCoord)
  | getTileWithQueryError (e : String) (id : String) (xyz : TileCoord) (url_query : Option UrlQuery)
deriving DecidableEq

/-- Modelled from the spec: `query_to_json` lives in `src/pg/utils.rs`, which is
not among the provided sources. Spec §4.3 step 3: the caller's query parameters
are forwarded as a JSON object, and "If no query parameters were supplied by
the caller, an empty JSON object is the default." -/
def query_to_json (url_query : Option UrlQuery) : List (String × String) :=
  match url_query with
  | some q => q
  | none => []

/-- Embeds `PgSource::get_tile` (`pg/pg_source.rs` lines 60–116). -/
def PgSource.get_tile (self : PgSource) (xyz : TileCoord) (url_query : Option UrlQuery) :
    Except PgError TileData :=
  match self.pool.get with
  | .error e => .error (.poolError e)
  | .ok conn =>
    let param_types : List PgType :=
      if self.support_url_query then [.int2, .int8, .int8, .json]
      else [.int2, .int8, .int8]
    let sql := self.info.sql_query
    match conn.prepare_typed_cached sql param_types with
    | .error e => .error (.prepareQueryError e self.id self.info.signature self.info.sql_query)
    | .ok prep_query =>
      let tile :=
        if self.support_url_query then
          let json := query_to_json url_query
          conn.query_opt prep_query
            [.int2 (xyz.z : Int), .int8 (xyz.x : Int), .int8 (xyz.y : Int), .json json]
        else
          conn.query_opt prep_query
            [.int2 (xyz.z : Int), .int8 (xyz.x : Int), .int8 (xyz.y : Int)]
      match tile with
      | .error e =>
        .error (if self.support_url_query then
            .getTileWithQueryError e self.id xyz url_query
          else
            .getTileError e self.id xyz)
      | .ok row => .ok ((row.bind Row.col0).getD [])

/-- Embeds `TileSources::add_source` (`pg/pg_source.rs` lines 138–180): dynamic
registration. The Rust method mutates `self` and returns `Ok(())`; it is
embedded as returning the updated registry. Note that it computes
`source_id = format!("{schema_name}.{source_name}")` for the new `PgSource`
but passes `source_name` as the insertion key. -/
def TileSources.add_source (self : TileSources) (schema_name source_name : String)
    (pool : PgPool) : Except String TileSources :=
  let source_id := schema_name ++ "." ++ source_name
  let tilejson : TileJSON :=
    { tilejson := "2.2.0"
      name := some source_name
      description := some ("Dynamic source added: " ++ schema_name ++ "." ++ source_name)
      version := some "1.0.0"
      tiles := []
      grids := none
      data := none
      minzoom := some 0
      maxzoom := some 22
      bounds := none
      center := none
      attribution := none
      template := none
      legend := none
      vector_layers := none
      fillzoom := none
      other := []
      scheme := none }
  let sql_query := "SELECT * FROM " ++ schema_name ++ "." ++ source_name
  let info : PgSqlInfo :=
    { sql_query := sql_query
      signature := ""
      use_url_query := false }
  let new_pg_source := PgSource.new source_id info tilejson pool
  .ok (self.insert_source source_name new_pg_source.clone_source)

/-! ### The TileJSON merge engine (`srv/tiles_info.rs`) -/

/-- The accumulator state of the `merge_tilejson` loop: the three dedup lists
plus the result document being built. -/
structure MergeAcc where
  attributions : List String
  descriptions : List String
  names : List String
  result : TileJSON

/-- The `if let Some(v) = ... { if !list.contains(&v) { list.push(v) } }`
pattern used for attribution, description and name. -/
def pushIfAbsent (l : List String) (v : Option String) : List String :=
  match v with
  | some v => if l.contains v then l else l ++ [v]
  | none => l

/-- The vector-layers step: concatenate the source's layer list. -/
def mergeVectorLayers (tj result : TileJSON) : TileJSON :=
  match tj.vector_layers with
  | some vector_layers =>
    match result.vector_layers with
    | some a => { result with vector_layers := some (a ++ vector_layers) }
    | none => { result with vector_layers := tj.vector_layers }
  | none => result

/-- The bounds step: progressive rectangle union via `Bounds` addition. -/
def mergeBounds (tj result : TileJSON) : TileJSON :=
  match tj.bounds with
  | some bounds =>
    match result.bounds with
    | some a => { result with bounds := some (a.add bounds) }
    | none => { result with bounds := tj.bounds }
  | none => result

/-- The center step: keep the first non-empty center. -/
def mergeCenter (tj result : TileJSON) : TileJSON :=
  if result.center.isNone then { result with center := tj.center } else result

/-- The maxzoom step: keep the larger defined value. -/
def mergeMaxzoom (tj result : TileJSON) : TileJSON :=
  match tj.maxzoom with
  | some maxzoom =>
    match result.maxzoom with
    | some a => if a < maxzoom then { result with maxzoom := tj.maxzoom } else result
    | none => { result with maxzoom := tj.maxzoom }
  | none => result

/-- The minzoom step: keep the smaller defined value. -/
def mergeMinzoom (tj result : TileJSON) : TileJSON :=
  match tj.minzoom with
  | some minzoom =>
    match result.minzoom with
    | some a => if a > minzoom then { result with minzoom := tj.minzoom } else result
    | none => { result with minzoom := tj.minzoom }
  | none => result

/-- One iteration of the `for src in sources` loop of `merge_tilejson`,
in the field order of the Rust code (vector layers, attribution, bounds,
center, description, maxzoom, minzoom, name). -/
def mergeStep (acc : MergeAcc) (src : Source) : MergeAcc :=
  let tj := src.get_tilejson
  { attributions := pushIfAbsent acc.attributions tj.attribution
    descriptions := pushIfAbsent acc.descriptions tj.description
    names := pushIfAbsent acc.names tj.name
    result :=
      mergeMinzoom tj (mergeMaxzoom tj (mergeCenter tj (mergeBounds tj
        (mergeVectorLayers tj acc.result)))) }

/-- The starting state of the `merge_tilejson` loop: empty dedup lists and the
`tilejson! { tiles: vec![tiles_url] }` document. -/
def mergeInit (tiles_url : String) : MergeAcc :=
  { attributions := [], descriptions := [], names := [],
    result := TileJSON.base [tiles_url] }

/-- The multi-source path of `merge_tilejson`: fold the loop over the sources,
then join each non-empty dedup list into its result field. -/
def mergeFold (sources : List Source) (tiles_url : String) : TileJSON :=
  let acc := sources.foldl mergeStep (mergeInit tiles_url)
  let result := acc.result
  let result :=
    if acc.attributions.isEmpty then result
    else { result with attribution := some (String.intercalate "\n" acc.attributions) }
  let result :=
    if acc.descriptions.isEmpty then result
    else { result with description := some (String.intercalate "\n" acc.descriptions) }
  let result :=
    if acc.names.isEmpty then result
    else { result with name := some (String.intercalate "," acc.names) }
  result

/-- Embeds `merge_tilejson` (`srv/tiles_info.rs` lines 70–161). -/
def merge_tilejson (sources : List Source) (tiles_url : String) : TileJSON :=
  match sources with
  | [src] => { src.get_tilejson with tiles := [tiles_url] }
  | _ => mergeFold sources tiles_url

/-! ### Specification-side helper functions -/

/-- Resolve a list of ids against the registry, in order; `none` if any id is
absent. Specification-side counterpart of looking every id up. -/
def resolveIds (ts : TileSources) : List String → Option (List Source)
  | [] => some []
  | id :: rest =>
    match ts.map id, resolveIds ts rest with
    | some src, some srcs => some (src :: srcs)
    | _, _ => none

/-- Maximum of a list of naturals, `none` when empty (specification side). -/
def listMax : List Nat → Option Nat
  | [] => none
  | a :: rest => some ((listMax rest).elim a (fun b => max a b))

/-- Minimum of a list of naturals, `none` when empty (specification side). -/
def listMin : List Nat → Option Nat
  | [] => none
  | a :: rest => some ((listMin rest).elim a (fun b => min a b))

/-- Order-preserving duplicate removal where the first occurrence keeps its
position (specification side). -/
def dedupFirst : List String → List String
  | [] => []
  | a :: rest => a :: dedupFirst (rest.filter (fun b => b != a))
termination_by l => l.length
decreasing_by
  simp only [List.length_cons]
  exact Nat.lt_succ_of_le (List.length_filter_le _ _)

/-- Join a list of strings with a separator, `none` when the list is empty
(specification side). -/
def joinOpt (sep : String) : List String → Option String
  | [] => none
  | a :: rest => some (String.intercalate sep (a :: rest))

/-- Whether a resolution outcome is the merge-conflict failure. -/
def isMergeConflict (r : Except SourceError (List Source × Bool × TileInfo)) : Bool :=
  match r with
  | .error (.mergeConflict _ _) => true
  | _ => false

/-- Whether a resolution outcome is the modelled `info.unwrap()` panic. -/
def isPanicNoInfo (r : Except SourceError (List Source × Bool × TileInfo)) : Bool :=
  match r with
  | .error .panicNoInfo => true
  | _ => false

/-- Specification-side zoom validity: no minzoom bound or `minzoom ≤ zoom`,
and no maxzoom bound or `zoom ≤ maxzoom`. -/
def zoomWithinRange (s : Source) (zoom : Nat) : Bool :=
  s.get_tilejson.minzoom.all (fun minzoom => decide (minzoom ≤ zoom))
  && s.get_tilejson.maxzoom.all (fun maxzoom => decide (zoom ≤ maxzoom))

/-! ### Registry construction (claim C1) -/

/-- The value `(a :: l).getLast?` is the last element of `l`, defaulting to `a`. -/
theorem getLast?_cons_eq (a : Source) (l : List Source) :
    (a :: l).getLast? = some ((l.getLast?).getD a) := by
  induction l generalizing a with
  | nil => rfl
  | cons b t ih =>
    rw [List.getLast?_cons_cons, ih b]
    rfl

/-- Folding inserts over a map: the last source whose id matches wins;
otherwise the starting map answers. -/
theorem foldl_insert_lookup (l : List Source) (m : TileSources) (id : String) :
    (l.foldl (fun m src => m.insert src.get_id src) m).map id =
      match (l.filter (fun s => s.get_id == id)).getLast? with
      | some s => some s
      | none => m.map id := by
  induction l generalizing m with
  | nil => rfl
  | cons a t ih =>
    simp only [List.foldl_cons, List.filter_cons]
    by_cases hpa : (a.get_id == id) = true
    · rw [ih]
      simp only [hpa, if_true]
      rw [getLast?_cons_eq]
      cases h : (t.filter (fun s => s.get_id == id)).getLast? with
      | some s => simp [h]
      | none =>
        have hid : id = a.get_id := (eq_of_beq hpa).symm
        simp [h, TileSources.insert, hid]
    · simp only [Bool.not_eq_true] at hpa
      rw [ih]
      simp only [hpa, if_false]
      have hne : ¬ id = a.get_id := fun h =>
        (beq_eq_false_iff_ne.mp hpa) h.symm
      cases h : (t.filter (fun s => s.get_id == id)).getLast? with
      | some s => simp [h]
      | none => simp [h, TileSources.insert, hne]

/-- C1: building the registry from an initial sequence of sources never fails;
a lookup after `TileSources::new` returns the LAST source in the flattened
input whose id matches (`HashMap::collect` is last-write-wins). In particular,
for pairwise-distinct ids the lookup of each id returns exactly the supplied
producer, but a duplicate id is silently shadowed rather than rejected with a
configuration error. -/
theorem new_lookup_last_write_wins (sources : List (List Source)) (id : String) :
    (TileSources.new sources).map id =
      ((sources.flatten).filter (fun s => s.get_id == id)).getLast? := by
  rw [TileSources.new, foldl_insert_lookup]
  cases h : ((sources.flatten).filter (fun s => s.get_id == id)).getLast? <;> rfl

/-- A source named `a` with an otherwise empty document. -/
def srcDupFirst : Source :=
  ⟨"a", TileJSON.base [], TileInfo.new Format.mvt Encoding.uncompressed, false⟩

/-- A second, different source also named `a`. -/
def srcDupSecond : Source :=
  ⟨"a", { TileJSON.base [] with name := some "second" },
    TileInfo.new Format.mvt Encoding.uncompressed, false⟩

/-- C1 counterexample: the initial sequence `[srcDupFirst, srcDupSecond]`
contains two distinct sources with the same id `"a"`, yet `TileSources::new`
(whose return type is not fallible) installs a producer under `"a"` — the
second one — instead of failing with a configuration error and installing
nothing. -/
theorem new_duplicate_id_installs_shadowing :
    srcDupFirst.get_id = srcDupSecond.get_id ∧
    srcDupFirst ≠ srcDupSecond ∧
    (TileSources.new [[srcDupFirst, srcDupSecond]]).map "a" = some srcDupSecond := by
  refine ⟨rfl, by decide, rfl⟩

/-! ### Dynamic registration (claim C2) -/

/-- C2: `TileSources::add_source` for schema `"public"` and table `"table1"`
succeeds, but the registry entry under the claimed id `"public.table1"` is
left unchanged; instead an entry appears under the bare table name
`"table1"`, holding the new `PgSource` whose own id IS `"public.table1"`.
The insertion key disagrees with the constructed `source_id`, so a subsequent
lookup of `"public.table1"` does not return the newly registered source. -/
theorem add_source_key_mismatch (ts : TileSources) (pool : PgPool) :
    ∃ ts2 : TileSources,
      ts.add_source "public" "table1" pool = .ok ts2 ∧
      ts2.map "public.table1" = ts.map "public.table1" ∧
      ∃ s : Source, ts2.map "table1" = some s ∧ s.get_id = "public.table1" := by
  refine ⟨_, rfl, ?_, ?_⟩
  · show (TileSources.insert _ _ _).map _ = _
    simp only [TileSources.insert]
    rw [if_neg (by decide : ¬ ("public.table1" = "table1"))]
  · exact ⟨_, rfl, rfl⟩

/-! ### Single-source merge fast path (claim C6) -/

/-- C6: `merge_tilejson` over a single source returns that source's metadata
with the tiles field replaced by the caller-constructed URL, and every other
field unchanged (restoring the original tiles field gives back the original
document). -/
theorem merge_tilejson_single (src : Source) (tiles_url : String) :
    (merge_tilejson [src] tiles_url).tiles = [tiles_url] ∧
    { merge_tilejson [src] tiles_url with tiles := src.get_tilejson.tiles } =
      src.get_tilejson := by
  exact ⟨rfl, rfl⟩

/-! ### Resolution engine: loop lemmas -/

/-- Splitting never yields an empty piece list. -/
theorem splitCharList_ne_nil (c : Char) (l : List Char) : splitCharList c l ≠ [] := by
  cases l with
  | nil => simp [splitCharList]
  | cons a rest =>
    simp only [splitCharList]
    by_cases h : a = c <;> simp [h]

/-- The id list produced by `rustSplit` is never empty. -/
theorem rustSplit_ne_nil (s : String) (c : Char) : rustSplit s c ≠ [] := by
  intro h
  exact splitCharList_ne_nil c s.data (by simpa [rustSplit] using h)

/-- If the loop finishes having processed at least one id (or already holding a
fingerprint), the accumulated fingerprint is present. -/
theorem getSourcesLoop_info_isSome (ts : TileSources) (zoom : Option Nat) :
    ∀ (ids : List String) (acc : List Source) (info : Option TileInfo) (uq : Bool)
      (srcs : List Source) (info' : Option TileInfo) (uq' : Bool),
      (ids ≠ [] ∨ info.isSome) →
      getSourcesLoop ts zoom ids acc info uq = .ok (srcs, info', uq') →
      info'.isSome
  | [], acc, info, uq, srcs, info', uq', hne, hok => by
    rcases hne with hne | hsome
    · exact absurd rfl hne
    · simp only [getSourcesLoop] at hok
      cases hok
      exact hsome
  | id :: rest, acc, info, uq, srcs, info', uq', _, hok => by
    cases hmap : ts.map id with
    | none =>
      simp [getSourcesLoop, TileSources.get_source, hmap] at hok
    | some src =>
      cases info with
      | none =>
        simp only [getSourcesLoop, TileSources.get_source, hmap] at hok
        refine getSourcesLoop_info_isSome ts zoom rest _ _ _ _ _ _ ?_ hok
        exact Or.inr rfl
      | some inf =>
        simp only [getSourcesLoop, TileSources.get_source, hmap] at hok
        by_cases heq : inf = src.get_tile_info
        · rw [if_pos heq] at hok
          refine getSourcesLoop_info_isSome ts zoom rest _ _ _ _ _ _ ?_ hok
          exact Or.inr rfl
        · rw [if_neg heq] at hok
          simp at hok

/-- The loop only fails with `notFound` or `mergeConflict`, never with the
modelled unwrap panic. -/
theorem getSourcesLoop_no_panic (ts : TileSources) (zoom : Option Nat) :
    ∀ (ids : List String) (acc : List Source) (info : Option TileInfo) (uq : Bool),
      getSourcesLoop ts zoom ids acc info uq ≠ .error .panicNoInfo
  | [], acc, info, uq => by simp [getSourcesLoop]
  | id :: rest, acc, info, uq => by
    intro hok
    cases hmap : ts.map id with
    | none =>
      simp [getSourcesLoop, TileSources.get_source, hmap] at hok
    | some src =>
      cases info with
      | none =>
        simp only [getSourcesLoop, TileSources.get_source, hmap] at hok
        exact getSourcesLoop_no_panic ts zoom rest _ _ _ hok
      | some inf =>
        simp only [getSourcesLoop, TileSources.get_source, hmap] at hok
        by_cases heq : inf = src.get_tile_info
        · rw [if_pos heq] at hok
          exact getSourcesLoop_no_panic ts zoom rest _ _ _ hok
        · rw [if_neg heq] at hok
          simp at hok

/-- C5: resolution can never surface the `info.unwrap()` panic: the id list
produced by `split(',')` is never empty, so by the time the unwrap is reached
at least one source has established the fingerprint; whenever `get_sources`
returns at all, the shared fingerprint was present. -/
theorem get_sources_unwrap_safe (ts : TileSources) (source_ids : String) (zoom : Option Nat) :
    isPanicNoInfo (ts.get_sources source_ids zoom) = false := by
  unfold TileSources.get_sources
  cases hloop : getSourcesLoop ts zoom (rustSplit source_ids ',') [] none false with
  | error e =>
    have hne := getSourcesLoop_no_panic ts zoom (rustSplit source_ids ',') [] none false
    rw [hloop] at hne
    cases e with
    | notFound id => rfl
    | mergeConflict a b => rfl
    | panicNoInfo => exact absurd rfl hne
  | ok res =>
    obtain ⟨srcs, info, uq⟩ := res
    have hsome := getSourcesLoop_info_isSome ts zoom (rustSplit source_ids ',') [] none false
      srcs info uq (Or.inl (rustSplit_ne_nil source_ids ',')) hloop
    cases info with
    | none => cases hsome
    | some inf => rfl

/-- C5 witness: a concrete successful resolution is not the panic outcome. -/
theorem get_sources_unwrap_safe_witness :
    isPanicNoInfo (TileSources.empty.get_sources "a" none) = false :=
  get_sources_unwrap_safe TileSources.empty "a" none

/-- Once a fingerprint is established, the first later source with a different
fingerprint aborts the loop with a `mergeConflict` naming the established
fingerprint and the offending one. -/
theorem getSourcesLoop_conflict (ts : TileSources) (zoom : Option Nat) (inf : TileInfo)
    (sbad : Source) (l2 : List Source) (hbad : sbad.get_tile_info ≠ inf) :
    ∀ (ids : List String) (srcs : List Source) (l1 : List Source)
      (acc : List Source) (uq : Bool),
      resolveIds ts ids = some srcs →
      srcs = l1 ++ sbad :: l2 →
      (∀ s ∈ l1, s.get_tile_info = inf) →
      getSourcesLoop ts zoom ids acc (some inf) uq =
        .error (.mergeConflict inf sbad.get_tile_info)
  | [], srcs, l1, acc, uq, hres, hsplit, _ => by
    simp only [resolveIds] at hres
    cases hres
    exact absurd hsplit.symm (List.append_ne_nil_of_right_ne_nil l1 (by simp))
  | id :: rest, srcs, l1, acc, uq, hres, hsplit, hpre => by
    simp only [resolveIds] at hres
    cases hmap : ts.map id with
    | none => rw [hmap] at hres; cases hres
    | some s =>
      rw [hmap] at hres
      cases hrest : resolveIds ts rest with
      | none => rw [hrest] at hres; cases hres
      | some srcs' =>
        rw [hrest] at hres
        cases hres
        have hsrc : ts.get_source id = .ok s := by
          simp [TileSources.get_source, hmap]
        simp only [getSourcesLoop, hsrc]
        cases l1 with
        | nil =>
          simp only [List.nil_append, List.cons.injEq] at hsplit
          rw [hsplit.1]
          rw [if_neg (fun h => hbad h.symm)]
        | cons x l1' =>
          simp only [List.cons_append, List.cons.injEq] at hsplit
          have hx : s.get_tile_info = inf := hsplit.1 ▸ hpre x (by simp)
          rw [if_pos hx.symm]
          exact getSourcesLoop_conflict ts zoom inf sbad l2 hbad rest srcs' l1' _ _
            hrest hsplit.2 (fun t ht => hpre t (List.mem_cons_of_mem x ht))

/-- C4: when every id of the comma-separated list resolves, the first source
establishes the format fingerprint; if a later source is the first whose
fingerprint differs, resolution fails with a merge-conflict error naming the
established fingerprint and the offending one. -/
theorem get_sources_merge_conflict (ts : TileSources) (source_ids : String) (zoom : Option Nat)
    (s0 sbad : Source) (rest l1 l2 : List Source)
    (hres : resolveIds ts (rustSplit source_ids ',') = some (s0 :: rest))
    (hrest : rest = l1 ++ sbad :: l2)
    (hpre : ∀ s ∈ l1, s.get_tile_info = s0.get_tile_info)
    (hbad : sbad.get_tile_info ≠ s0.get_tile_info) :
    ts.get_sources source_ids zoom =
      .error (.mergeConflict s0.get_tile_info sbad.get_tile_info) := by
  unfold TileSources.get_sources
  cases hids : rustSplit source_ids ',' with
  | nil => rw [hids] at hres; simp [resolveIds] at hres
  | cons id0 ids0 =>
    rw [hids] at hres
    simp only [resolveIds] at hres
    cases hmap : ts.map id0 with
    | none => rw [hmap] at hres; cases hres
    | some s =>
      rw [hmap] at hres
      cases hrest0 : resolveIds ts ids0 with
      | none => rw [hrest0] at hres; cases hres
      | some srcs' =>
        rw [hrest0] at hres
        cases hres
        have hsrc : ts.get_source id0 = .ok s0 := by
          simp [TileSources.get_source, hmap]
        simp only [getSourcesLoop, hsrc]
        rw [getSourcesLoop_conflict ts zoom s0.get_tile_info sbad l2 hbad ids0 rest l1 _ _
          hrest0 hrest hpre]

/-! ### Witness fixtures: a small concrete registry -/

/-- A vector-tile source with zoom range 5–10. -/
def srcMvtA : Source :=
  ⟨"a", { TileJSON.base [] with minzoom := some 5, maxzoom := some 10 },
    TileInfo.new Format.mvt Encoding.uncompressed, false⟩

/-- A vector-tile source with no zoom bounds. -/
def srcMvtB : Source :=
  ⟨"b", TileJSON.base [], TileInfo.new Format.mvt Encoding.uncompressed, true⟩

/-- A raster (png) source, fingerprint-incompatible with the mvt ones. -/
def srcPngC : Source :=
  ⟨"c", TileJSON.base [], TileInfo.new Format.png Encoding.uncompressed, false⟩

/-- A concrete registry holding the three sources above. -/
def tsABC : TileSources :=
  ((TileSources.empty.insert "a" srcMvtA).insert "b" srcMvtB).insert "c" srcPngC

/-- C4 witness: requesting `"a,c"` (mvt then png) fails with a merge conflict
naming both fingerprints. -/
theorem get_sources_merge_conflict_witness :
    tsABC.get_sources "a,c" none =
      .error (.mergeConflict (TileInfo.new Format.mvt Encoding.uncompressed)
        (TileInfo.new Format.png Encoding.uncompressed)) :=
  get_sources_merge_conflict tsABC "a,c" none srcMvtA srcPngC [srcPngC] [] []
    (by decide) rfl (by simp) (by decide)

/-! ### Zoom filtering (claim C9) -/

/-- When a zoom is supplied and every id resolves, a successful loop returns
the accumulator followed by the resolved sources that pass the zoom check, in
request order. -/
theorem getSourcesLoop_zoom_filter (ts : TileSources) (z : Nat) :
    ∀ (ids : List String) (resolved : List Source) (acc : List Source)
      (info : Option TileInfo) (uq : Bool)
      (srcs : List Source) (info' : Option TileInfo) (uq' : Bool),
      resolveIds ts ids = some resolved →
      getSourcesLoop ts (some z) ids acc info uq = .ok (srcs, info', uq') →
      srcs = acc ++ resolved.filter (fun s => s.is_valid_zoom z)
  | [], resolved, acc, info, uq, srcs, info', uq', hres, hok => by
    simp only [resolveIds] at hres
    cases hres
    simp only [getSourcesLoop] at hok
    cases hok
    simp
  | id :: rest, resolved, acc, info, uq, srcs, info', uq', hres, hok => by
    cases hmap : ts.map id with
    | none => simp [resolveIds, hmap] at hres
    | some s =>
      cases hrest : resolveIds ts rest with
      | none => simp [resolveIds, hmap, hrest] at hres
      | some resolved' =>
        simp only [resolveIds, hmap, hrest] at hres
        cases hres
        cases info with
        | none =>
          simp only [getSourcesLoop, TileSources.get_source, hmap] at hok
          rw [getSourcesLoop_zoom_filter ts z rest resolved' _ _ _ _ _ _ hrest hok]
          simp only [List.filter_cons]
          by_cases hv : s.is_valid_zoom z = true
          · simp [TileSources.check_zoom, hv]
          · simp only [Bool.not_eq_true] at hv
            simp [TileSources.check_zoom, hv]
        | some inf =>
          simp only [getSourcesLoop, TileSources.get_source, hmap] at hok
          by_cases heq : inf = s.get_tile_info
          · rw [if_pos heq] at hok
            rw [getSourcesLoop_zoom_filter ts z rest resolved' _ _ _ _ _ _ hrest hok]
            simp only [List.filter_cons]
            by_cases hv : s.is_valid_zoom z = true
            · simp [TileSources.check_zoom, hv]
            · simp only [Bool.not_eq_true] at hv
              simp [TileSources.check_zoom, hv]
          · rw [if_neg heq] at hok
            simp at hok

/-- C9: a successful resolution at a supplied zoom returns exactly the
resolved sources whose `is_valid_zoom` holds, preserving request order
(dropped sources cause no error); and `is_valid_zoom` holds exactly when the
metadata imposes no violated minzoom or maxzoom bound. -/
theorem get_sources_zoom_filtering (ts : TileSources) (source_ids : String) (z : Nat)
    (resolved srcs : List Source) (uq : Bool) (inf : TileInfo) (s : Source)
    (hres : resolveIds ts (rustSplit source_ids ',') = some resolved)
    (hok : ts.get_sources source_ids (some z) = .ok (srcs, uq, inf)) :
    srcs = resolved.filter (fun t => t.is_valid_zoom z) ∧
    s.is_valid_zoom z = zoomWithinRange s z := by
  constructor
  · unfold TileSources.get_sources at hok
    cases hloop : getSourcesLoop ts (some z) (rustSplit source_ids ',') [] none false with
    | error e => rw [hloop] at hok; simp at hok
    | ok res =>
      obtain ⟨srcs0, info0, uq0⟩ := res
      rw [hloop] at hok
      cases info0 with
      | none => simp at hok
      | some inf0 =>
        simp only [Except.ok.injEq, Prod.mk.injEq] at hok
        obtain ⟨h1, _, _⟩ := hok
        have h2 := getSourcesLoop_zoom_filter ts z (rustSplit source_ids ',') resolved
          [] none false srcs0 (some inf0) uq0 hres hloop
        rw [← h1]
        simpa using h2
  · unfold Source.is_valid_zoom zoomWithinRange
    cases s.get_tilejson.minzoom <;> cases s.get_tilejson.maxzoom <;> rfl

/-- C9 witness: at zoom 12 the source with maxzoom 10 is dropped without an
error and the unbounded source is kept. -/
theorem get_sources_zoom_filtering_witness :
    [srcMvtB] = [srcMvtA, srcMvtB].filter (fun t => t.is_valid_zoom 12) ∧
    srcMvtA.is_valid_zoom 12 = zoomWithinRange srcMvtA 12 :=
  get_sources_zoom_filtering tsABC "a,b" 12 [srcMvtA, srcMvtB] [srcMvtB] true
    (TileInfo.new Format.mvt Encoding.uncompressed) srcMvtA (by decide) rfl

/-! ### All-PostgreSQL requests never merge-conflict (claim C10) -/

/-- If every id still to be processed resolves (when it resolves at all) to a
source carrying the constant PostgreSQL fingerprint, the loop can never
produce a merge conflict — whatever else the registry contains. -/
theorem getSourcesLoop_pg_no_conflict (ts : TileSources) (zoom : Option Nat) :
    ∀ (ids : List String) (acc : List Source) (info : Option TileInfo) (uq : Bool)
      (a b : TileInfo),
      (∀ id ∈ ids, ∀ s, ts.map id = some s →
        s.get_tile_info = TileInfo.new Format.mvt Encoding.uncompressed) →
      (info = none ∨ info = some (TileInfo.new Format.mvt Encoding.uncompressed)) →
      getSourcesLoop ts zoom ids acc info uq ≠ .error (.mergeConflict a b)
  | [], acc, info, uq, a, b, _, _ => by simp [getSourcesLoop]
  | id :: rest, acc, info, uq, a, b, hts, hinfo => by
    intro hok
    cases hmap : ts.map id with
    | none =>
      simp [getSourcesLoop, TileSources.get_source, hmap] at hok
    | some src =>
      have hsrcinfo := hts id (List.mem_cons_self id rest) src hmap
      have hrest : ∀ id2 ∈ rest, ∀ s, ts.map id2 = some s →
          s.get_tile_info = TileInfo.new Format.mvt Encoding.uncompressed :=
        fun id2 h2 => hts id2 (List.mem_cons_of_mem id h2)
      cases info with
      | none =>
        simp only [getSourcesLoop, TileSources.get_source, hmap] at hok
        exact getSourcesLoop_pg_no_conflict ts zoom rest _ _ _ a b hrest
          (Or.inr (by rw [hsrcinfo])) hok
      | some inf =>
        have hinf : inf = TileInfo.new Format.mvt Encoding.uncompressed := by
          rcases hinfo with h | h
          · cases h
          · exact Option.some.inj h
        simp only [getSourcesLoop, TileSources.get_source, hmap] at hok
        rw [if_pos (by rw [hinf, hsrcinfo])] at hok
        exact getSourcesLoop_pg_no_conflict ts zoom rest _ _ _ a b hrest
          (Or.inr (by rw [hinf])) hok

/-- C10: every `PgSource` reports the same constant fingerprint (vector tile,
uncompressed) whatever its id, SQL descriptor or metadata; hence every request
whose named ids all resolve to PostgreSQL-backed sources — even against a
registry that also holds sources of other kinds — can never fail with a merge
conflict. -/
theorem pg_fingerprint_constant_no_conflict (p : PgSource) (ts : TileSources)
    (source_ids : String) (zoom : Option Nat)
    (hpg : ∀ id ∈ rustSplit source_ids ',', ∀ s, ts.map id = some s →
      ∃ q : PgSource, s = q.clone_source) :
    p.get_tile_info = TileInfo.new Format.mvt Encoding.uncompressed ∧
    isMergeConflict (ts.get_sources source_ids zoom) = false := by
  refine ⟨rfl, ?_⟩
  have hts : ∀ id ∈ rustSplit source_ids ',', ∀ s, ts.map id = some s →
      s.get_tile_info = TileInfo.new Format.mvt Encoding.uncompressed := by
    intro id hid s h
    obtain ⟨q, rfl⟩ := hpg id hid s h
    rfl
  unfold TileSources.get_sources
  cases hloop : getSourcesLoop ts zoom (rustSplit source_ids ',') [] none false with
  | error e =>
    cases e with
    | notFound id => rfl
    | panicNoInfo => rfl
    | mergeConflict a b =>
      exact absurd hloop
        (getSourcesLoop_pg_no_conflict ts zoom _ _ _ _ a b hts (Or.inl rfl))
  | ok res =>
    obtain ⟨srcs, info, uq⟩ := res
    cases info <;> rfl

/-- A pool stub for the dynamic-registration and fingerprint fixtures. -/
def pgPoolStub : PgPool := ⟨.error "pool unavailable"⟩

/-- A concrete PostgreSQL-backed source. -/
def pgSrcT : PgSource :=
  PgSource.new "public.t" (PgSqlInfo.new "SELECT mvt FROM public.t" false "public.t(z,x,y)")
    (TileJSON.base []) pgPoolStub

/-- A mixed registry: one PostgreSQL-backed source next to a png source. -/
def tsMixed : TileSources :=
  (TileSources.empty.insert "c" srcPngC).insert "public.t" pgSrcT.clone_source

/-- C10 witness: on the mixed registry, the request naming only the
PostgreSQL-backed id resolves without a merge conflict, and the concrete
`PgSource` reports the constant fingerprint. -/
theorem pg_fingerprint_constant_no_conflict_witness :
    pgSrcT.get_tile_info = TileInfo.new Format.mvt Encoding.uncompressed ∧
    isMergeConflict (tsMixed.get_sources "public.t" none) = false :=
  pg_fingerprint_constant_no_conflict pgSrcT tsMixed "public.t" none
    (by
      intro id hid s h
      have hids : rustSplit "public.t" ',' = ["public.t"] := by decide
      rw [hids] at hid
      have hid2 : id = "public.t" := by simpa using hid
      subst hid2
      have hm : tsMixed.map "public.t" = some pgSrcT.clone_source := by decide
      rw [hm] at h
      exact ⟨pgSrcT, (Option.some.inj h).symm⟩)

/-! ### Merge engine: per-field analysis of the fold (claims C7 and C8) -/

/-- The vector-layers step leaves the text and zoom fields unchanged. -/
theorem mergeVectorLayers_proj (tj r : TileJSON) :
    (mergeVectorLayers tj r).attribution = r.attribution ∧
    (mergeVectorLayers tj r).description = r.description ∧
    (mergeVectorLayers tj r).name = r.name ∧
    (mergeVectorLayers tj r).maxzoom = r.maxzoom ∧
    (mergeVectorLayers tj r).minzoom = r.minzoom := by
  unfold mergeVectorLayers
  cases tj.vector_layers with
  | none => exact ⟨rfl, rfl, rfl, rfl, rfl⟩
  | some vl => cases r.vector_layers <;> exact ⟨rfl, rfl, rfl, rfl, rfl⟩

/-- The bounds step leaves the text and zoom fields unchanged. -/
theorem mergeBounds_proj (tj r : TileJSON) :
    (mergeBounds tj r).attribution = r.attribution ∧
    (mergeBounds tj r).description = r.description ∧
    (mergeBounds tj r).name = r.name ∧
    (mergeBounds tj r).maxzoom = r.maxzoom ∧
    (mergeBounds tj r).minzoom = r.minzoom := by
  unfold mergeBounds
  cases tj.bounds with
  | none => exact ⟨rfl, rfl, rfl, rfl, rfl⟩
  | some b => cases r.bounds <;> exact ⟨rfl, rfl, rfl, rfl, rfl⟩

/-- The center step leaves the text and zoom fields unchanged. -/
theorem mergeCenter_proj (tj r : TileJSON) :
    (mergeCenter tj r).attribution = r.attribution ∧
    (mergeCenter tj r).description = r.description ∧
    (mergeCenter tj r).name = r.name ∧
    (mergeCenter tj r).maxzoom = r.maxzoom ∧
    (mergeCenter tj r).minzoom = r.minzoom := by
  unfold mergeCenter
  by_cases h : r.center.isNone = true
  · rw [if_pos h]; exact ⟨rfl, rfl, rfl, rfl, rfl⟩
  · rw [if_neg h]; exact ⟨rfl, rfl, rfl, rfl, rfl⟩

/-- The maxzoom step leaves the text fields and minzoom unchanged. -/
theorem mergeMaxzoom_proj (tj r : TileJSON) :
    (mergeMaxzoom tj r).attribution = r.attribution ∧
    (mergeMaxzoom tj r).description = r.description ∧
    (mergeMaxzoom tj r).name = r.name ∧
    (mergeMaxzoom tj r).minzoom = r.minzoom := by
  unfold mergeMaxzoom
  cases tj.maxzoom with
  | none => exact ⟨rfl, rfl, rfl, rfl⟩
  | some v =>
    cases r.maxzoom with
    | none => exact ⟨rfl, rfl, rfl, rfl⟩
    | some a => by_cases h : a < v <;> simp [h]

/-- The minzoom step leaves the text fields and maxzoom unchanged. -/
theorem mergeMinzoom_proj (tj r : TileJSON) :
    (mergeMinzoom tj r).attribution = r.attribution ∧
    (mergeMinzoom tj r).description = r.description ∧
    (mergeMinzoom tj r).name = r.name ∧
    (mergeMinzoom tj r).maxzoom = r.maxzoom := by
  unfold mergeMinzoom
  cases tj.minzoom with
  | none => exact ⟨rfl, rfl, rfl, rfl⟩
  | some v =>
    cases r.minzoom with
    | none => exact ⟨rfl, rfl, rfl, rfl⟩
    | some a => by_cases h : a > v <;> simp [h]

/-- One step of the running maxzoom (specification side): `a` is the running
value, `v` the incoming one. -/
def combineMaxzoom (a v : Option Nat) : Option Nat :=
  match v, a with
  | some v, some a => if a < v then some v else some a
  | some v, none => some v
  | none, a => a

/-- One step of the running minzoom (specification side). -/
def combineMinzoom (a v : Option Nat) : Option Nat :=
  match v, a with
  | some v, some a => if a > v then some v else some a
  | some v, none => some v
  | none, a => a

/-- The maxzoom step computes `combineMaxzoom`. -/
theorem mergeMaxzoom_maxzoom (tj r : TileJSON) :
    (mergeMaxzoom tj r).maxzoom = combineMaxzoom r.maxzoom tj.maxzoom := by
  unfold mergeMaxzoom combineMaxzoom
  cases tj.maxzoom with
  | none => rfl
  | some v =>
    cases hr : r.maxzoom with
    | none => rfl
    | some a => by_cases h : a < v <;> simp [h, hr]

/-- The minzoom step computes `combineMinzoom`. -/
theorem mergeMinzoom_minzoom (tj r : TileJSON) :
    (mergeMinzoom tj r).minzoom = combineMinzoom r.minzoom tj.minzoom := by
  unfold mergeMinzoom combineMinzoom
  cases tj.minzoom with
  | none => rfl
  | some v =>
    cases hr : r.minzoom with
    | none => rfl
    | some a => by_cases h : a > v <;> simp [h, hr]

/-- The loop body never writes the result's attribution. -/
theorem mergeStep_result_attribution (acc : MergeAcc) (s : Source) :
    (mergeStep acc s).result.attribution = acc.result.attribution := by
  show (mergeMinzoom _ (mergeMaxzoom _ (mergeCenter _ (mergeBounds _
    (mergeVectorLayers _ acc.result))))).attribution = _
  rw [(mergeMinzoom_proj _ _).1, (mergeMaxzoom_proj _ _).1, (mergeCenter_proj _ _).1,
    (mergeBounds_proj _ _).1, (mergeVectorLayers_proj _ _).1]

/-- The loop body never writes the result's description. -/
theorem mergeStep_result_description (acc : MergeAcc) (s : Source) :
    (mergeStep acc s).result.description = acc.result.description := by
  show (mergeMinzoom _ (mergeMaxzoom _ (mergeCenter _ (mergeBounds _
    (mergeVectorLayers _ acc.result))))).description = _
  rw [(mergeMinzoom_proj _ _).2.1, (mergeMaxzoom_proj _ _).2.1, (mergeCenter_proj _ _).2.1,
    (mergeBounds_proj _ _).2.1, (mergeVectorLayers_proj _ _).2.1]

/-- The loop body never writes the result's name. -/
theorem mergeStep_result_name (acc : MergeAcc) (s : Source) :
    (mergeStep acc s).result.name = acc.result.name := by
  show (mergeMinzoom _ (mergeMaxzoom _ (mergeCenter _ (mergeBounds _
    (mergeVectorLayers _ acc.result))))).name = _
  rw [(mergeMinzoom_proj _ _).2.2.1, (mergeMaxzoom_proj _ _).2.2.1,
    (mergeCenter_proj _ _).2.2.1, (mergeBounds_proj _ _).2.2.1,
    (mergeVectorLayers_proj _ _).2.2.1]

/-- The loop body updates the result's maxzoom by `combineMaxzoom`. -/
theorem mergeStep_result_maxzoom (acc : MergeAcc) (s : Source) :
    (mergeStep acc s).result.maxzoom =
      combineMaxzoom acc.result.maxzoom s.get_tilejson.maxzoom := by
  show (mergeMinzoom _ (mergeMaxzoom _ (mergeCenter _ (mergeBounds _
    (mergeVectorLayers _ acc.result))))).maxzoom = _
  rw [(mergeMinzoom_proj _ _).2.2.2, mergeMaxzoom_maxzoom, (mergeCenter_proj _ _).2.2.2.1,
    (mergeBounds_proj _ _).2.2.2.1, (mergeVectorLayers_proj _ _).2.2.2.1]

/-- The loop body updates the result's minzoom by `combineMinzoom`. -/
theorem mergeStep_result_minzoom (acc : MergeAcc) (s : Source) :
    (mergeStep acc s).result.minzoom =
      combineMinzoom acc.result.minzoom s.get_tilejson.minzoom := by
  show (mergeMinzoom _ (mergeMaxzoom _ (mergeCenter _ (mergeBounds _
    (mergeVectorLayers _ acc.result))))).minzoom = _
  rw [mergeMinzoom_minzoom, (mergeMaxzoom_proj _ _).2.2.2, (mergeCenter_proj _ _).2.2.2.2,
    (mergeBounds_proj _ _).2.2.2.2, (mergeVectorLayers_proj _ _).2.2.2.2]

/-- Folding the loop leaves the result's attribution untouched. -/
theorem foldl_mergeStep_result_attribution (srcs : List Source) (acc : MergeAcc) :
    (srcs.foldl mergeStep acc).result.attribution = acc.result.attribution := by
  induction srcs generalizing acc with
  | nil => rfl
  | cons s t ih => rw [List.foldl_cons, ih, mergeStep_result_attribution]

/-- Folding the loop leaves the result's description untouched. -/
theorem foldl_mergeStep_result_description (srcs : List Source) (acc : MergeAcc) :
    (srcs.foldl mergeStep acc).result.description = acc.result.description := by
  induction srcs generalizing acc with
  | nil => rfl
  | cons s t ih => rw [List.foldl_cons, ih, mergeStep_result_description]

/-- Folding the loop leaves the result's name untouched. -/
theorem foldl_mergeStep_result_name (srcs : List Source) (acc : MergeAcc) :
    (srcs.foldl mergeStep acc).result.name = acc.result.name := by
  induction srcs generalizing acc with
  | nil => rfl
  | cons s t ih => rw [List.foldl_cons, ih, mergeStep_result_name]

/-- Folding the loop folds `combineMaxzoom` over the sources' maxzooms. -/
theorem foldl_mergeStep_result_maxzoom (srcs : List Source) (acc : MergeAcc) :
    (srcs.foldl mergeStep acc).result.maxzoom =
      srcs.foldl (fun o s => combineMaxzoom o s.get_tilejson.maxzoom) acc.result.maxzoom := by
  induction srcs generalizing acc with
  | nil => rfl
  | cons s t ih => rw [List.foldl_cons, List.foldl_cons, ih, mergeStep_result_maxzoom]

/-- Folding the loop folds `combineMinzoom` over the sources' minzooms. -/
theorem foldl_mergeStep_result_minzoom (srcs : List Source) (acc : MergeAcc) :
    (srcs.foldl mergeStep acc).result.minzoom =
      srcs.foldl (fun o s => combineMinzoom o s.get_tilejson.minzoom) acc.result.minzoom := by
  induction srcs generalizing acc with
  | nil => rfl
  | cons s t ih => rw [List.foldl_cons, List.foldl_cons, ih, mergeStep_result_minzoom]

/-- Combining two present values with `combineMaxzoom` gives the maximum. -/
theorem combineMaxzoom_some_some (a x : Nat) :
    combineMaxzoom (some a) (some x) = some (max a x) := by
  by_cases h : a < x
  · simp [combineMaxzoom, h, Nat.max_eq_right (Nat.le_of_lt h)]
  · simp [combineMaxzoom, h, Nat.max_eq_left (Nat.le_of_not_lt h)]

/-- Combining two present values with `combineMinzoom` gives the minimum. -/
theorem combineMinzoom_some_some (a x : Nat) :
    combineMinzoom (some a) (some x) = some (min a x) := by
  by_cases h : a > x
  · simp [combineMinzoom, h, Nat.min_eq_right (Nat.le_of_lt h)]
  · simp [combineMinzoom, h, Nat.min_eq_left (Nat.le_of_not_lt h)]

/-- Folding `combineMaxzoom` computes the maximum of the defined maxzooms,
merged with the running value. -/
theorem foldl_combineMaxzoom_char (f : Source → Option Nat) :
    ∀ (srcs : List Source) (o : Option Nat),
      srcs.foldl (fun o s => combineMaxzoom o (f s)) o =
        match o, listMax (srcs.filterMap f) with
        | none, m => m
        | some a, none => some a
        | some a, some m => some (max a m)
  | [], o => by cases o <;> rfl
  | s :: t, o => by
    rw [List.foldl_cons]
    cases hf : f s with
    | none =>
      rw [show combineMaxzoom o none = o from by cases o <;> rfl]
      rw [foldl_combineMaxzoom_char f t o]
      simp [List.filterMap_cons, hf]
    | some x =>
      cases o with
      | none =>
        rw [show combineMaxzoom none (some x) = some x from rfl]
        rw [foldl_combineMaxzoom_char f t (some x)]
        simp only [List.filterMap_cons, hf, listMax]
        cases listMax (t.filterMap f) <;> simp
      | some a =>
        rw [combineMaxzoom_some_some, foldl_combineMaxzoom_char f t (some (max a x))]
        simp only [List.filterMap_cons, hf, listMax]
        cases listMax (t.filterMap f) <;> simp [Nat.max_assoc]

/-- Folding `combineMinzoom` computes the minimum of the defined minzooms,
merged with the running value. -/
theorem foldl_combineMinzoom_char (f : Source → Option Nat) :
    ∀ (srcs : List Source) (o : Option Nat),
      srcs.foldl (fun o s => combineMinzoom o (f s)) o =
        match o, listMin (srcs.filterMap f) with
        | none, m => m
        | some a, none => some a
        | some a, some m => some (min a m)
  | [], o => by cases o <;> rfl
  | s :: t, o => by
    rw [List.foldl_cons]
    cases hf : f s with
    | none =>
      rw [show combineMinzoom o none = o from by cases o <;> rfl]
      rw [foldl_combineMinzoom_char f t o]
      simp [List.filterMap_cons, hf]
    | some x =>
      cases o with
      | none =>
        rw [show combineMinzoom none (some x) = some x from rfl]
        rw [foldl_combineMinzoom_char f t (some x)]
        simp only [List.filterMap_cons, hf, listMin]
        cases listMin (t.filterMap f) <;> simp
      | some a =>
        rw [combineMinzoom_some_some, foldl_combineMinzoom_char f t (some (min a x))]
        simp only [List.filterMap_cons, hf, listMin]
        cases listMin (t.filterMap f) <;> simp [Nat.min_assoc]

/-- The multi-source path keeps the folded maxzoom. -/
theorem mergeFold_maxzoom (sources : List Source) (url : String) :
    (mergeFold sources url).maxzoom =
      (sources.foldl mergeStep (mergeInit url)).result.maxzoom := by
  simp only [mergeFold, apply_ite TileJSON.maxzoom, ite_self]

/-- The multi-source path keeps the folded minzoom. -/
theorem mergeFold_minzoom (sources : List Source) (url : String) :
    (mergeFold sources url).minzoom =
      (sources.foldl mergeStep (mergeInit url)).result.minzoom := by
  simp only [mergeFold, apply_ite TileJSON.minzoom, ite_self]

/-- On a list whose length is not one, `merge_tilejson` takes the
multi-source path. -/
theorem merge_tilejson_multi (sources : List Source) (url : String)
    (h : sources.length ≠ 1) :
    merge_tilejson sources url = mergeFold sources url := by
  cases sources with
  | nil => rfl
  | cons a t =>
    cases t with
    | nil => exact absurd rfl h
    | cons b t2 => rfl

/-- C7: for a multi-source merge, the merged maxzoom is the maximum over the
sources that define one and the merged minzoom the minimum over the sources
that define one; a zoom field defined by no source stays absent. -/
theorem merge_tilejson_zoom_union (sources : List Source) (tiles_url : String)
    (h : sources.length ≠ 1) :
    (merge_tilejson sources tiles_url).maxzoom =
      listMax (sources.filterMap (fun s => s.get_tilejson.maxzoom)) ∧
    (merge_tilejson sources tiles_url).minzoom =
      listMin (sources.filterMap (fun s => s.get_tilejson.minzoom)) := by
  rw [merge_tilejson_multi sources tiles_url h]
  constructor
  · rw [mergeFold_maxzoom, foldl_mergeStep_result_maxzoom,
      foldl_combineMaxzoom_char (fun s => s.get_tilejson.maxzoom) sources]
    rfl
  · rw [mergeFold_minzoom, foldl_mergeStep_result_minzoom,
      foldl_combineMinzoom_char (fun s => s.get_tilejson.minzoom) sources]
    rfl

/-- A source with zoom range 5–10 and some text metadata. -/
def srcZoom510 : Source :=
  ⟨"s1",
    { TileJSON.base [] with
        minzoom := some 5
        maxzoom := some 10
        name := some "layer1"
        attribution := some "attr" },
    TileInfo.new Format.mvt Encoding.uncompressed, false⟩

/-- A source with zoom range 7–12 and some text metadata. -/
def srcZoom712 : Source :=
  ⟨"s2",
    { TileJSON.base [] with
        minzoom := some 7
        maxzoom := some 12
        name := some "layer2"
        attribution := some "attr" },
    TileInfo.new Format.mvt Encoding.uncompressed, false⟩

/-- C7 witness: merging sources with maxzooms 10 and 12 and minzooms 5 and 7
yields maxzoom 12 and minzoom 5. -/
theorem merge_tilejson_zoom_union_witness :
    (merge_tilejson [srcZoom510, srcZoom712] "u").maxzoom =
      listMax ([srcZoom510, srcZoom712].filterMap (fun s => s.get_tilejson.maxzoom)) ∧
    (merge_tilejson [srcZoom510, srcZoom712] "u").minzoom =
      listMin ([srcZoom510, srcZoom712].filterMap (fun s => s.get_tilejson.minzoom)) :=
  merge_tilejson_zoom_union [srcZoom510, srcZoom712] "u" (by decide)

/-! ### Merge engine: text-field dedup lists (claim C8) -/

/-- Folding the loop accumulates the attribution dedup list. -/
theorem foldl_mergeStep_attributions (srcs : List Source) (acc : MergeAcc) :
    (srcs.foldl mergeStep acc).attributions =
      srcs.foldl (fun l s => pushIfAbsent l s.get_tilejson.attribution) acc.attributions := by
  induction srcs generalizing acc with
  | nil => rfl
  | cons s t ih =>
    rw [List.foldl_cons, List.foldl_cons, ih]
    rfl

/-- Folding the loop accumulates the description dedup list. -/
theorem foldl_mergeStep_descriptions (srcs : List Source) (acc : MergeAcc) :
    (srcs.foldl mergeStep acc).descriptions =
      srcs.foldl (fun l s => pushIfAbsent l s.get_tilejson.description) acc.descriptions := by
  induction srcs generalizing acc with
  | nil => rfl
  | cons s t ih =>
    rw [List.foldl_cons, List.foldl_cons, ih]
    rfl

/-- Folding the loop accumulates the name dedup list. -/
theorem foldl_mergeStep_names (srcs : List Source) (acc : MergeAcc) :
    (srcs.foldl mergeStep acc).names =
      srcs.foldl (fun l s => pushIfAbsent l s.get_tilejson.name) acc.names := by
  induction srcs generalizing acc with
  | nil => rfl
  | cons s t ih =>
    rw [List.foldl_cons, List.foldl_cons, ih]
    rfl

/-- Pushing the present values is folding the insert-if-absent step over the
present values. -/
theorem foldl_pushIfAbsent_filterMap (f : Source → Option String) :
    ∀ (srcs : List Source) (l : List String),
      srcs.foldl (fun l s => pushIfAbsent l (f s)) l =
        (srcs.filterMap f).foldl (fun l v => if l.contains v then l else l ++ [v]) l
  | [], l => rfl
  | s :: t, l => by
    rw [List.foldl_cons]
    cases hf : f s with
    | none =>
      rw [show pushIfAbsent l none = l from rfl]
      rw [foldl_pushIfAbsent_filterMap f t l]
      simp [List.filterMap_cons, hf]
    | some v =>
      rw [show pushIfAbsent l (some v) = if l.contains v then l else l ++ [v] from rfl]
      rw [foldl_pushIfAbsent_filterMap f t _]
      simp [List.filterMap_cons, hf]

/-- Membership in an appended singleton. -/
theorem contains_append_singleton (acc : List String) (a v : String) :
    (acc ++ [a]).contains v = (acc.contains v || v == a) := by
  rw [List.contains_eq_any_beq, List.contains_eq_any_beq, List.any_append]
  simp only [List.any_cons, List.any_nil, Bool.or_false]

/-- Folding insert-if-absent from any accumulator appends the first-occurrence
dedup of the not-yet-seen values. -/
theorem foldl_insertAbsent_dedup :
    ∀ (l : List String) (acc : List String),
      l.foldl (fun l v => if l.contains v then l else l ++ [v]) acc =
        acc ++ dedupFirst (l.filter (fun v => !acc.contains v))
  | [], acc => by simp [dedupFirst]
  | a :: t, acc => by
    rw [List.foldl_cons]
    by_cases hmem : a ∈ acc
    · have hc : acc.contains a = true := by simp [hmem]
      rw [if_pos hc, foldl_insertAbsent_dedup t acc, List.filter_cons]
      have hcf : (!acc.contains a) = false := by simp [hmem]
      rw [hcf, if_neg (fun hcon => Bool.noConfusion hcon)]
    · have hcp : ¬(acc.contains a = true) := by simp [hmem]
      rw [if_neg hcp, foldl_insertAbsent_dedup t (acc ++ [a]), List.filter_cons]
      have hct : (!acc.contains a) = true := by simp [hmem]
      rw [hct, if_pos rfl]
      rw [show dedupFirst (a :: t.filter (fun v => !acc.contains v)) =
        a :: dedupFirst ((t.filter (fun v => !acc.contains v)).filter (fun b => b != a))
        from by rw [dedupFirst]]
      rw [List.filter_filter]
      have hfil : t.filter (fun v => !(acc ++ [a]).contains v) =
          t.filter (fun v => (v != a && !acc.contains v)) := by
        apply List.filter_congr
        intro v _
        rw [contains_append_singleton]
        by_cases hva : v = a
        · subst hva
          simp
        · have hba : (v == a) = false := beq_eq_false_iff_ne.mpr hva
          simp [hba, bne]
      rw [hfil]
      simp

/-- The three post-loop joins, pushed through to each text field of the
multi-source result. -/
theorem mergeFold_attribution (sources : List Source) (url : String) :
    (mergeFold sources url).attribution =
      (if (sources.foldl mergeStep (mergeInit url)).attributions.isEmpty then none
       else some (String.intercalate "\n"
         (sources.foldl mergeStep (mergeInit url)).attributions)) := by
  simp only [mergeFold, apply_ite TileJSON.attribution, ite_self]
  rw [foldl_mergeStep_result_attribution]
  rfl

/-- The description join of the multi-source result. -/
theorem mergeFold_description (sources : List Source) (url : String) :
    (mergeFold sources url).description =
      (if (sources.foldl mergeStep (mergeInit url)).descriptions.isEmpty then none
       else some (String.intercalate "\n"
         (sources.foldl mergeStep (mergeInit url)).descriptions)) := by
  simp only [mergeFold, apply_ite TileJSON.description, ite_self]
  rw [foldl_mergeStep_result_description]
  rfl

/-- The name join of the multi-source result. -/
theorem mergeFold_name (sources : List Source) (url : String) :
    (mergeFold sources url).name =
      (if (sources.foldl mergeStep (mergeInit url)).names.isEmpty then none
       else some (String.intercalate ","
         (sources.foldl mergeStep (mergeInit url)).names)) := by
  simp only [mergeFold, apply_ite TileJSON.name, ite_self]
  rw [foldl_mergeStep_result_name]
  rfl

/-- An empty-guarded join is `joinOpt`. -/
theorem if_isEmpty_joinOpt (sep : String) (l : List String) :
    (if l.isEmpty then none else some (String.intercalate sep l)) = joinOpt sep l := by
  cases l <;> rfl

/-- The accumulated dedup list for a field accessor is the first-occurrence
dedup of the present values. -/
theorem foldl_pushIfAbsent_dedup (f : Source → Option String) (srcs : List Source) :
    srcs.foldl (fun l s => pushIfAbsent l (f s)) [] = dedupFirst (srcs.filterMap f) := by
  rw [foldl_pushIfAbsent_filterMap, foldl_insertAbsent_dedup]
  simp

/-- C8: in a multi-source merge, each of attribution, description and name is
the order-preserving, duplicate-free list (first occurrence keeps its
position) of the sources' present values, joined with a newline for
attribution and description and a comma for name; a field present in no
source is absent from the result. -/
theorem merge_tilejson_text_fields (sources : List Source) (tiles_url : String)
    (h : sources.length ≠ 1) :
    (merge_tilejson sources tiles_url).attribution =
      joinOpt "\n" (dedupFirst (sources.filterMap (fun s => s.get_tilejson.attribution))) ∧
    (merge_tilejson sources tiles_url).description =
      joinOpt "\n" (dedupFirst (sources.filterMap (fun s => s.get_tilejson.description))) ∧
    (merge_tilejson sources tiles_url).name =
      joinOpt "," (dedupFirst (sources.filterMap (fun s => s.get_tilejson.name))) := by
  rw [merge_tilejson_multi sources tiles_url h]
  refine ⟨?_, ?_, ?_⟩
  · rw [mergeFold_attribution, foldl_mergeStep_attributions]
    rw [show (mergeInit tiles_url).attributions = [] from rfl]
    rw [foldl_pushIfAbsent_dedup, if_isEmpty_joinOpt]
  · rw [mergeFold_description, foldl_mergeStep_descriptions]
    rw [show (mergeInit tiles_url).descriptions = [] from rfl]
    rw [foldl_pushIfAbsent_dedup, if_isEmpty_joinOpt]
  · rw [mergeFold_name, foldl_mergeStep_names]
    rw [show (mergeInit tiles_url).names = [] from rfl]
    rw [foldl_pushIfAbsent_dedup, if_isEmpty_joinOpt]

/-- C8 witness: two sources sharing an attribution and carrying distinct names
merge into a deduplicated newline-joined attribution and a comma-joined name. -/
theorem merge_tilejson_text_fields_witness :
    (merge_tilejson [srcZoom510, srcZoom712] "u").attribution =
      joinOpt "\n" (dedupFirst ([srcZoom510, srcZoom712].filterMap
        (fun s => s.get_tilejson.attribution))) ∧
    (merge_tilejson [srcZoom510, srcZoom712] "u").description =
      joinOpt "\n" (dedupFirst ([srcZoom510, srcZoom712].filterMap
        (fun s => s.get_tilejson.description))) ∧
    (merge_tilejson [srcZoom510, srcZoom712] "u").name =
      joinOpt "," (dedupFirst ([srcZoom510, srcZoom712].filterMap
        (fun s => s.get_tilejson.name))) :=
  merge_tilejson_text_fields [srcZoom510, srcZoom712] "u" (by decide)

/-! ### PostgreSQL tile fetch (claim C3) -/

/-- C3: whenever pool acquisition, statement preparation and query execution
all succeed, `get_tile` returns the first column's bytes (so an error can only
come from one of those three steps); and when the query yields no row, or a
row whose first column is database NULL, the result is the empty byte
sequence, not an error. -/
theorem get_tile_no_row_is_empty (src : PgSource) (xyz : TileCoord) (q : Option UrlQuery)
    (conn : PgConn) (stmt : PgStatement) (res : Option Row)
    (hpool : src.pool.get = .ok conn)
    (hprep : conn.prepare_typed_cached src.info.sql_query
      (if src.support_url_query then [PgType.int2, PgType.int8, PgType.int8, PgType.json]
       else [PgType.int2, PgType.int8, PgType.int8]) = .ok stmt)
    (hexec : conn.query_opt stmt
      (if src.support_url_query then
        [SqlParam.int2 (xyz.z : Int), SqlParam.int8 (xyz.x : Int), SqlParam.int8 (xyz.y : Int),
          SqlParam.json (query_to_json q)]
       else
        [SqlParam.int2 (xyz.z : Int), SqlParam.int8 (xyz.x : Int),
          SqlParam.int8 (xyz.y : Int)]) = .ok res) :
    src.get_tile xyz q = .ok ((res.bind Row.col0).getD []) ∧
    ((res = none ∨ res.bind Row.col0 = none) → src.get_tile xyz q = .ok []) := by
  have hmain : src.get_tile xyz q = .ok ((res.bind Row.col0).getD []) := by
    cases hq : src.support_url_query with
    | true =>
      rw [hq] at hprep hexec
      simp only [if_true] at hprep hexec
      simp only [PgSource.get_tile, hpool, hq, if_true, hprep, hexec]
    | false =>
      rw [hq] at hprep hexec
      simp only [Bool.false_eq_true, if_false] at hprep hexec
      simp only [PgSource.get_tile, hpool, hq, Bool.false_eq_true, if_false, hprep, hexec]
  refine ⟨hmain, ?_⟩
  intro hcase
  rw [hmain]
  rcases hcase with hnone | hcol
  · rw [hnone]
    rfl
  · rw [hcol]
    rfl

/-- A connection whose preparation always succeeds and whose execution
always returns zero rows. -/
def c3Conn : PgConn :=
  ⟨fun sql types => .ok ⟨sql, types⟩, fun _ _ => .ok none⟩

/-- A pool always handing out `c3Conn`. -/
def c3Pool : PgPool := ⟨.ok c3Conn⟩

/-- A PostgreSQL source wired to the stub pool. -/
def c3Src : PgSource :=
  PgSource.new "public.w" (PgSqlInfo.new "SELECT tile FROM public.w" false "public.w(z,x,y)")
    (TileJSON.base []) c3Pool

/-- C3 witness: fetching a coordinate with no matching row returns the empty
byte sequence, not an error. -/
theorem get_tile_no_row_is_empty_witness :
    c3Src.get_tile ⟨0, 0, 0⟩ none = .ok (((none : Option Row).bind Row.col0).getD []) ∧
    (((none : Option Row) = none ∨ (none : Option Row).bind Row.col0 = none) →
      c3Src.get_tile ⟨0, 0, 0⟩ none = .ok []) :=
  get_tile_no_row_is_empty c3Src ⟨0, 0, 0⟩ none c3Conn
    ⟨"SELECT tile FROM public.w", [PgType.int2, PgType.int8, PgType.int8]⟩ none rfl rfl rfl

end Martin
